import Mathlib

/-
Verification of the restaurant point-of-sale backend (the Hono server of this
repository).  Every definition below is a shallow embedding of one of the
HTTP handlers of the server file; values stored in the Supabase key-value
store are modelled as records, and the store itself as association lists
keyed by the structured contents of the colon-separated key strings
(`table:${restaurantId}:${n}` becomes the key `(restaurantId, n)` in the
`tables` map, and so on).  JavaScript numbers are modelled as exact
rationals (ℚ) for money and quantities and as ℕ for timestamps and table
numbers; `crypto.randomUUID()` and `Date` reads are modelled as explicit
parameters supplied by the caller.
-/

namespace POS

/-- Error responses of the handlers, one constructor per early-return
`c.json({error: ...}, status)` branch; `internal` is the catch-all 500 of an
uncaught exception. -/
inductive Err where
  | missingFields
  | paymentRequired
  | duplicateEmail
  | notFound
  | unauthorized
  | internal
deriving Repr, DecidableEq

/-- The restaurant record written by the signup handler. -/
structure Restaurant where
  id : String
  email : String
  password : String
  name : String
  paid : Bool
  managerPassword : String
  createdAt : Nat
deriving Repr, DecidableEq

/-- A line item of an order: `{productId, name, quantity, price, category}`. -/
structure Item where
  productId : String
  name : String
  quantity : ℚ
  price : ℚ
  category : String
deriving Repr, DecidableEq

/-- An order record: `{id, restaurantId, tableNumber, items, status, timestamp}`;
`status` is the literal string `"pending"` or `"ready"`. -/
structure Order where
  id : String
  restaurantId : String
  tableNumber : Nat
  items : List Item
  status : String
  timestamp : Nat
deriving Repr, DecidableEq

/-- A table record: `{number, orders}` where `orders` is the list of order ids. -/
structure Table where
  number : Nat
  orders : List String
deriving Repr, DecidableEq

/-- An ingredient requirement of a product: `{name, quantity, unit}`. -/
structure Ingredient where
  name : String
  quantity : ℚ
  unit : String
deriving Repr, DecidableEq

/-- A product record: `{id, name, price, category, ingredients}`. -/
structure Product where
  id : String
  name : String
  price : ℚ
  category : String
  ingredients : List Ingredient
deriving Repr, DecidableEq

/-- An inventory record: `{ingredient, quantity, unit}`; the quantity is signed. -/
structure InventoryItem where
  ingredient : String
  quantity : ℚ
  unit : String
deriving Repr, DecidableEq

/-- A daily sales record: `{date, total, count}`. -/
structure SalesRecord where
  date : String
  total : ℚ
  count : Nat
deriving Repr, DecidableEq

/-- Modelled from the spec: point lookup of the key-value store
(`kv_store.tsx`, imported by the server but not among the sources), described
as "a namespaced mapping from string key to arbitrary structured value,
supporting point get/set/delete".  `kv.get` of an absent key is falsy. -/
def getk {κ α : Type} [DecidableEq κ] : List (κ × α) → κ → Option α
  | [], _ => none
  | (k', v) :: rest, k => if k' = k then some v else getk rest k

/-- Modelled from the spec: point deletion of the key-value store
(`kv.del`); deleting an absent key is not an error. -/
def delk {κ α : Type} [DecidableEq κ] : List (κ × α) → κ → List (κ × α)
  | [], _ => []
  | (k', v) :: rest, k => if k' = k then delk rest k else (k', v) :: delk rest k

/-- Modelled from the spec: point write of the key-value store (`kv.set`),
overwriting any previous value of the key. -/
def setk {κ α : Type} [DecidableEq κ] (m : List (κ × α)) (k : κ) (v : α) :
    List (κ × α) :=
  (k, v) :: delk m k

/-- The whole persistent state: one map per key prefix of the server's
keyspace (`restaurant:`, `restaurant:email:`, `table:`, `order:`, `product:`,
`inventory:`, `sales:`). -/
structure KVState where
  restaurants : List (String × Restaurant)
  emailIndex : List (String × String)
  tables : List ((String × Nat) × Table)
  orders : List ((String × String) × Order)
  products : List ((String × String) × Product)
  inventory : List ((String × String) × InventoryItem)
  sales : List ((String × String) × SalesRecord)
deriving Repr, DecidableEq

/-- The empty store. -/
def KVState.empty : KVState := ⟨[], [], [], [], [], [], []⟩

/-- The provisioning loop of the signup handler:
`for (let i = 1; i <= 10; i++) kv.set(table:${rid}:${i}, {number: i, orders: []})`,
unrolled as a recursion setting tables `1..n`. -/
def provisionUpTo (rid : String) :
    Nat → List ((String × Nat) × Table) → List ((String × Nat) × Table)
  | 0, m => m
  | j + 1, m => setk (provisionUpTo rid j m) (rid, j + 1) ⟨j + 1, []⟩

/-- `POST /signup`: rejects falsy fields (400), then a payment token other
than `"PAID"` (402), then an already-indexed email (400); otherwise writes
the restaurant record (with `paid: true`, `managerPassword: ""`), the email
index, and tables 1–10.  `newId` stands for the `crypto.randomUUID()` result
and `now` for `Date.now()`. -/
def signup (s : KVState) (email password restaurantName paymentToken : String)
    (newId : String) (now : Nat) : Except Err (KVState × String) :=
  if email = "" ∨ password = "" ∨ restaurantName = "" ∨ paymentToken = "" then
    .error .missingFields
  else if paymentToken ≠ "PAID" then
    .error .paymentRequired
  else
    match getk s.emailIndex email with
    | some _ => .error .duplicateEmail
    | none =>
      let r : Restaurant := ⟨newId, email, password, restaurantName, true, "", now⟩
      let s1 : KVState :=
        { s with restaurants := setk s.restaurants newId r,
                 emailIndex := setk s.emailIndex email newId }
      .ok ({ s1 with tables := provisionUpTo newId 10 s1.tables }, newId)

/-- `POST /set-manager-password`: 404 if the restaurant record is absent,
otherwise overwrites `managerPassword` unconditionally. -/
def setManagerPassword (s : KVState) (rid password : String) :
    Except Err KVState :=
  match getk s.restaurants rid with
  | none => .error .notFound
  | some r =>
    .ok { s with restaurants := setk s.restaurants rid { r with managerPassword := password } }

/-- `POST /verify-manager`: 404 if the restaurant record is absent, 401 if
the stored manager password differs from the supplied one (exact string
comparison). -/
def verifyManager (s : KVState) (rid password : String) : Except Err Unit :=
  match getk s.restaurants rid with
  | none => .error .notFound
  | some r => if r.managerPassword ≠ password then .error .unauthorized else .ok ()

/-- The inner inventory loop of `POST /orders`: for each ingredient of the
product, if an inventory record exists its quantity is decremented by
`ingredient.quantity * item.quantity`; absent records are skipped.  Only the
inventory map is read and written. -/
def deductIngredients (rid : String) (itemQty : ℚ)
    (inv : List ((String × String) × InventoryItem)) :
    List Ingredient → List ((String × String) × InventoryItem)
  | [] => inv
  | ing :: rest =>
    match getk inv (rid, ing.name) with
    | some cur =>
      deductIngredients rid itemQty
        (setk inv (rid, ing.name) { cur with quantity := cur.quantity - ing.quantity * itemQty })
        rest
    | none => deductIngredients rid itemQty inv rest

/-- The outer inventory loop of `POST /orders`: for each ordered item, if the
item's product record exists, its ingredient list is deducted (the product
map is never written inside the loop, so it is passed as a constant). -/
def applyDeductions (rid : String)
    (products : List ((String × String) × Product))
    (inv : List ((String × String) × InventoryItem)) :
    List Item → List ((String × String) × InventoryItem)
  | [] => inv
  | item :: rest =>
    match getk products (rid, item.productId) with
    | some p =>
      applyDeductions rid products
        (deductIngredients rid item.quantity inv p.ingredients) rest
    | none => applyDeductions rid products inv rest

/-- `POST /orders`: writes a fresh order with status `"pending"`, appends its
id to the table's order list when the table record exists (silently skipping
the linkage otherwise), then runs the inventory deduction loops; always
answers `{success: true, orderId}`.  `newOid` stands for the
`crypto.randomUUID()` result and `now` for `Date.now()`. -/
def placeOrder (s : KVState) (rid : String) (tableNumber : Nat)
    (items : List Item) (newOid : String) (now : Nat) :
    Except Err (KVState × String) :=
  let order : Order := ⟨newOid, rid, tableNumber, items, "pending", now⟩
  let s1 : KVState := { s with orders := setk s.orders (rid, newOid) order }
  let s2 : KVState :=
    match getk s1.tables (rid, tableNumber) with
    | some t =>
      { s1 with tables := setk s1.tables (rid, tableNumber) { t with orders := t.orders ++ [newOid] } }
    | none => s1
  .ok ({ s2 with inventory := applyDeductions rid s2.products s2.inventory items }, newOid)

/-- `PUT /orders/:orderId/ready`: 404 if the order record is absent,
otherwise sets its status to `"ready"`. -/
def markReady (s : KVState) (rid oid : String) : Except Err KVState :=
  match getk s.orders (rid, oid) with
  | none => .error .notFound
  | some o =>
    .ok { s with orders := setk s.orders (rid, oid) { o with status := "ready" } }

/-- `DELETE /orders/:orderId`: deletes the order key unconditionally and
answers success whether or not it existed. -/
def completeOrder (s : KVState) (rid oid : String) : Except Err KVState :=
  .ok { s with orders := delk s.orders (rid, oid) }

/-- `PUT /orders/:orderId/items`: 404 if the order record is absent; with
`quantity === 0` the item at `itemIndex` is spliced out (`Array.splice`
removes nothing when the index is past the end); otherwise
`order.items[itemIndex].quantity = quantity` sets the quantity in place,
which throws (500) when the index is past the end. -/
def updateLineItem (s : KVState) (rid oid : String) (itemIndex : Nat)
    (quantity : ℚ) : Except Err KVState :=
  match getk s.orders (rid, oid) with
  | none => .error .notFound
  | some o =>
    if quantity = 0 then
      .ok { s with orders := setk s.orders (rid, oid) { o with items := o.items.eraseIdx itemIndex } }
    else if h : itemIndex < o.items.length then
      let it := o.items.get ⟨itemIndex, h⟩
      let o' : Order := { o with items := o.items.set itemIndex { it with quantity := quantity } }
      .ok { s with orders := setk s.orders (rid, oid) o' }
    else
      .error .internal

/-- `GET /tables/:restaurantId/:tableNumber/orders`: an absent table answers
the empty list (not an error); otherwise each id of the table's order list is
fetched and ids that no longer resolve are skipped. -/
def listTableOrders (s : KVState) (rid : String) (tn : Nat) : List Order :=
  match getk s.tables (rid, tn) with
  | none => []
  | some t => t.orders.filterMap fun oid => getk s.orders (rid, oid)

/-- The order-deletion loop of `POST /tables/.../close`:
`for (const orderId of table.orders) kv.del(order:${rid}:${orderId})`. -/
def delOrders (rid : String) (m : List ((String × String) × Order)) :
    List String → List ((String × String) × Order)
  | [] => m
  | oid :: rest => delOrders rid (delk m (rid, oid)) rest

/-- `POST /tables/:restaurantId/:tableNumber/close`: 404 if the table record
is absent; otherwise deletes every order the table references, clears the
table's order list, and upserts today's sales record, adding
`subtotal * 1.1` to the total and 1 to the count.  `today` stands for the
server-side `new Date().toISOString().split('T')[0]` and `subtotal` for the
request-body field. -/
def closeTable (s : KVState) (rid : String) (tn : Nat) (subtotal : ℚ)
    (today : String) : Except Err KVState :=
  match getk s.tables (rid, tn) with
  | none => .error .notFound
  | some t =>
    let s1 : KVState := { s with orders := delOrders rid s.orders t.orders }
    let s2 : KVState := { s1 with tables := setk s1.tables (rid, tn) { t with orders := [] } }
    let prev : SalesRecord := (getk s2.sales (rid, today)).getD ⟨today, 0, 0⟩
    let updatedSales : SalesRecord := { prev with total := prev.total + subtotal * 1.1, count := prev.count + 1 }
    .ok { s2 with sales := setk s2.sales (rid, today) updatedSales }

/-- `POST /inventory`: reads the ingredient's record, substituting
`{ingredient, quantity: 0, unit}` when absent, adds the (signed) quantity
delta and writes the record back; never an error. -/
def adjustInventory (s : KVState) (rid ingredient : String) (quantity : ℚ)
    (unit : String) : Except Err KVState :=
  let current : InventoryItem := (getk s.inventory (rid, ingredient)).getD ⟨ingredient, 0, unit⟩
  let updated : InventoryItem := { current with quantity := current.quantity + quantity }
  .ok { s with inventory := setk s.inventory (rid, ingredient) updated }

/-- The total amount of ingredient `name` that one ordered item requires:
the sum of `ingredient.quantity * itemQty` over the entries of the product's
ingredient list whose name is `name`. -/
def ingredientNeed (name : String) (itemQty : ℚ) : List Ingredient → ℚ
  | [] => 0
  | ing :: rest =>
    (if ing.name = name then ing.quantity * itemQty else 0) +
      ingredientNeed name itemQty rest

/-- The total amount of ingredient `name` deducted by an order: the sum of
`ingredientNeed` over the ordered items whose product record exists. -/
def deductionTotal (rid : String)
    (products : List ((String × String) × Product)) (name : String) :
    List Item → ℚ
  | [] => 0
  | item :: rest =>
    (match getk products (rid, item.productId) with
     | some p => ingredientNeed name item.quantity p.ingredients
     | none => 0) + deductionTotal rid products name rest

/-! ### Concrete states used to evaluate the theorems -/

/-- The store produced by a signup on the empty store with id `"r1"`. -/
def signupState : KVState :=
  ⟨[("r1", ⟨"r1", "a@b.c", "pw", "Cafe", true, "", 0⟩)], [("a@b.c", "r1")],
   provisionUpTo "r1" 10 [], [], [], [], []⟩

/-- A store with one table (number 2) holding two orders and an existing
sales record for the day. -/
def closeDemoState : KVState :=
  ⟨[], [],
   [(("r", 2), ⟨2, ["oA", "oB"]⟩)],
   [(("r", "oA"), ⟨"oA", "r", 2, [⟨"p1", "Burger", 1, 10, "food"⟩], "pending", 5⟩),
    (("r", "oB"), ⟨"oB", "r", 2, [⟨"p2", "Juice", 2, 5, "drink"⟩], "ready", 6⟩)],
   [], [],
   [(("r", "2026-10-11"), ⟨"2026-10-11", 100, 3⟩)]⟩

/-- A store with one table (number 1) already holding one order id. -/
def orderDemoState : KVState :=
  ⟨[], [], [(("r", 1), ⟨1, ["oX"]⟩)],
   [(("r", "oX"), ⟨"oX", "r", 1, [⟨"p1", "Burger", 1, 10, "food"⟩], "pending", 0⟩)],
   [], [], []⟩

/-- A store with one product requiring 10 of ingredient `"cheese"` per unit
and a stock of only 5. -/
def stockDemoState : KVState :=
  ⟨[], [], [], [],
   [(("r", "p1"), ⟨"p1", "Burger", 10, "food", [⟨"cheese", 10, "g"⟩]⟩)],
   [(("r", "cheese"), ⟨"cheese", 5, "g"⟩)], []⟩

/-- A store with a single one-item pending order. -/
def lineItemDemoState : KVState :=
  ⟨[], [], [],
   [(("r", "o1"), ⟨"o1", "r", 1, [⟨"p1", "Burger", 1, 10, "food"⟩], "pending", 0⟩)],
   [], [], []⟩

/-- A store with a single two-item pending order. -/
def twoItemDemoState : KVState :=
  ⟨[], [], [],
   [(("r", "o2"), ⟨"o2", "r", 1,
      [⟨"p1", "Burger", 1, 10, "food"⟩, ⟨"p2", "Juice", 2, 5, "drink"⟩],
      "pending", 0⟩)],
   [], [], []⟩

/-! ### Key-value store lemmas -/

theorem getk_delk {κ α : Type} [DecidableEq κ] (m : List (κ × α)) (k k' : κ) :
    getk (delk m k) k' = if k = k' then none else getk m k' := by
  induction m with
  | nil => simp [delk, getk]
  | cons p rest ih =>
    obtain ⟨a, b⟩ := p
    by_cases h1 : a = k
    · subst h1
      simp only [delk, eq_self_iff_true, if_true]
      rw [ih]
      by_cases h2 : a = k'
      · simp [h2]
      · simp [getk, h2]
    · simp only [delk, if_neg h1, getk, ih]
      by_cases h2 : a = k'
      · subst h2
        have hk : ¬k = a := fun h => h1 h.symm
        simp [hk]
      · simp [h2]

theorem getk_setk {κ α : Type} [DecidableEq κ] (m : List (κ × α)) (k k' : κ)
    (v : α) :
    getk (setk m k v) k' = if k = k' then some v else getk m k' := by
  by_cases h : k = k' <;> simp [setk, getk, getk_delk, h]

theorem getk_setk_self {κ α : Type} [DecidableEq κ] (m : List (κ × α)) (k : κ)
    (v : α) : getk (setk m k v) k = some v := by
  simp [getk_setk]

/-! ### The table-provisioning loop -/

theorem getk_provisionUpTo (rid rid' : String) (n j : Nat)
    (m : List ((String × Nat) × Table)) :
    getk (provisionUpTo rid n m) (rid', j) =
      if rid' = rid ∧ 1 ≤ j ∧ j ≤ n then some ⟨j, []⟩ else getk m (rid', j) := by
  induction n with
  | zero =>
    have hc : ¬(rid' = rid ∧ 1 ≤ j ∧ j ≤ 0) := by rintro ⟨_, _, _⟩; omega
    simp only [provisionUpTo]
    rw [if_neg hc]
  | succ k ih =>
    by_cases hr : rid' = rid
    · subst hr
      simp only [provisionUpTo, getk_setk, ih, Prod.mk.injEq, true_and]
      by_cases hj : j = k + 1
      · subst hj
        have hb : 1 ≤ k + 1 ∧ k + 1 ≤ k + 1 := by omega
        simp [hb]
      · have e1 : ¬(rid' = rid' ∧ k + 1 = j) := fun h => hj h.2.symm
        simp only [true_and] at e1 ⊢
        rw [if_neg e1]
        by_cases hb : 1 ≤ j ∧ j ≤ k
        · rw [if_pos hb, if_pos ⟨hb.1, by omega⟩]
        · rw [if_neg hb, if_neg (by rintro ⟨h1, h2⟩; exact hb ⟨h1, by omega⟩)]
    · have e1 : ¬((rid, k + 1) = (rid', j)) := fun h => hr (congrArg Prod.fst h).symm
      simp [provisionUpTo, getk_setk, ih, e1, hr]

/-! ### The order-deletion loop of table close -/

theorem getk_delOrders (rid rid' : String) (oids : List String)
    (m : List ((String × String) × Order)) (o : String) :
    getk (delOrders rid m oids) (rid', o) =
      if rid' = rid ∧ o ∈ oids then none else getk m (rid', o) := by
  induction oids generalizing m with
  | nil => simp [delOrders]
  | cons x rest ih =>
    simp only [delOrders, ih, getk_delk]
    by_cases hr : rid' = rid
    · subst hr
      by_cases hx : o ∈ rest
      · simp [hx, List.mem_cons]
      · by_cases he : x = o
        · subst he
          simp [hx, List.mem_cons]
        · have e1 : ¬((rid', x) = (rid', o)) := by
            intro h
            exact he (congrArg Prod.snd h)
          have e2 : ¬(o ∈ x :: rest) := by
            intro h
            rcases List.mem_cons.mp h with h' | h'
            · exact he h'.symm
            · exact hx h'
          simp [hx, e1, e2]
    · have e1 : ¬((rid, x) = (rid', o)) := fun h => hr (congrArg Prod.fst h).symm
      simp [hr, e1]

/-! ### The inventory-deduction loops -/

theorem getk_deductIngredients (rid : String) (itemQty : ℚ)
    (ings : List Ingredient) (inv : List ((String × String) × InventoryItem))
    (name : String) (cur : InventoryItem)
    (h : getk inv (rid, name) = some cur) :
    getk (deductIngredients rid itemQty inv ings) (rid, name) =
      some { cur with quantity := cur.quantity - ingredientNeed name itemQty ings } := by
  induction ings generalizing inv cur with
  | nil => simp [deductIngredients, ingredientNeed, h]
  | cons ing rest ih =>
    by_cases hn : ing.name = name
    · subst hn
      simp only [deductIngredients, h]
      rw [ih _ _ (getk_setk_self _ _ _)]
      obtain ⟨ci, cq, cu⟩ := cur
      simp [ingredientNeed, InventoryItem.mk.injEq]
      ring
    · cases hm : getk inv (rid, ing.name) with
      | some c2 =>
        simp only [deductIngredients, hm]
        have e1 : getk (setk inv (rid, ing.name)
            { c2 with quantity := c2.quantity - ing.quantity * itemQty }) (rid, name) = some cur := by
          rw [getk_setk]
          have e2 : ¬((rid, ing.name) = (rid, name)) := by
            intro hp
            exact hn (congrArg Prod.snd hp)
          rw [if_neg e2, h]
        rw [ih _ _ e1]
        simp [ingredientNeed, hn]
      | none =>
        simp only [deductIngredients, hm]
        rw [ih _ _ h]
        simp [ingredientNeed, hn]

theorem getk_applyDeductions (rid : String)
    (products : List ((String × String) × Product)) (items : List Item)
    (inv : List ((String × String) × InventoryItem)) (name : String)
    (cur : InventoryItem) (h : getk inv (rid, name) = some cur) :
    getk (applyDeductions rid products inv items) (rid, name) =
      some { cur with quantity := cur.quantity - deductionTotal rid products name items } := by
  induction items generalizing inv cur with
  | nil => simp [applyDeductions, deductionTotal, h]
  | cons item rest ih =>
    cases hp : getk products (rid, item.productId) with
    | some p =>
      simp only [applyDeductions, hp]
      rw [ih _ _ (getk_deductIngredients rid item.quantity p.ingredients inv name cur h)]
      obtain ⟨ci, cq, cu⟩ := cur
      simp [deductionTotal, hp, InventoryItem.mk.injEq]
      ring
    | none =>
      simp only [applyDeductions, hp]
      rw [ih _ _ h]
      simp [deductionTotal, hp]

theorem filterMap_getk_delk (rid oid : String)
    (m : List ((String × String) × Order)) (l : List String) :
    l.filterMap (fun i => getk (delk m (rid, oid)) (rid, i)) =
      (l.filter fun i => i ≠ oid).filterMap (fun i => getk m (rid, i)) := by
  induction l with
  | nil => rfl
  | cons x rest ih =>
    by_cases hx : x = oid
    · subst hx
      have e1 : getk (delk m (rid, x)) (rid, x) = none := by
        rw [getk_delk, if_pos rfl]
      simp [List.filter_cons, List.filterMap_cons, e1, ih]
    · have e1 : getk (delk m (rid, oid)) (rid, x) = getk m (rid, x) := by
        rw [getk_delk, if_neg]
        intro h
        exact hx (congrArg Prod.snd h).symm
      simp [List.filter_cons, List.filterMap_cons, e1, ih, hx]

/-! ### C1: closing a table -/

/-- C1: for every existing table, `closeTable` deletes every order record the
table's order list references, clears the list (a subsequent
`listTableOrders` returns the empty sequence), and additively upserts the
day's sales record: the total grows by exactly `subtotal * 1.1` and the
count by exactly 1 (starting from `{date, total: 0, count: 0}` when no
record exists yet).  For a missing table it fails with `NotFound`; the
handler returns 404 before its first write, which the embedding mirrors by
erroring without producing a new state, so no state changes. -/
theorem closeTable_spec (s : KVState) (rid : String) (tn : Nat)
    (subtotal : ℚ) (today : String) :
    (∀ t, getk s.tables (rid, tn) = some t →
      ∃ s', closeTable s rid tn subtotal today = .ok s' ∧
        (∀ oid, oid ∈ t.orders → getk s'.orders (rid, oid) = none) ∧
        getk s'.tables (rid, tn) = some { t with orders := [] } ∧
        listTableOrders s' rid tn = [] ∧
        ∃ sr, getk s'.sales (rid, today) = some sr ∧
          sr.total = ((getk s.sales (rid, today)).getD ⟨today, 0, 0⟩).total + subtotal * 1.1 ∧
          sr.count = ((getk s.sales (rid, today)).getD ⟨today, 0, 0⟩).count + 1) ∧
    (getk s.tables (rid, tn) = none →
      closeTable s rid tn subtotal today = .error .notFound) := by
  constructor
  · intro t ht
    simp only [closeTable, ht]
    refine ⟨_, rfl, ?_, ?_, ?_, ?_⟩
    · intro oid hm
      rw [getk_delOrders]
      simp [hm]
    · exact getk_setk_self _ _ _
    · simp [listTableOrders, getk_setk_self]
    · exact ⟨_, getk_setk_self _ _ _, rfl, rfl⟩
  · intro ht
    simp [closeTable, ht]

/-- C1 witness: a concrete run of `closeTable` on a table with two orders and
an existing daily record of total 100 and count 3: both orders vanish, the
table order list empties, and the record becomes total 122 (100 + 20 × 1.1)
and count 4. -/
theorem closeTable_witness :
    ∃ s', closeTable closeDemoState "r" 2 20 "2026-10-11" = .ok s' ∧
      getk s'.orders ("r", "oA") = none ∧
      getk s'.orders ("r", "oB") = none ∧
      listTableOrders s' "r" 2 = [] ∧
      ∃ sr, getk s'.sales ("r", "2026-10-11") = some sr ∧
        sr.total = 122 ∧ sr.count = 4 := by
  obtain ⟨s', hrun, hdel, -, hlist, sr, hsr, htot, hcnt⟩ :=
    (closeTable_spec closeDemoState "r" 2 20 "2026-10-11").1 ⟨2, ["oA", "oB"]⟩ rfl
  refine ⟨s', hrun, hdel "oA" (by simp), hdel "oB" (by simp), hlist, sr, hsr, ?_, ?_⟩
  · rw [htot]
    norm_num [closeDemoState, getk]
  · rw [hcnt]
    norm_num [closeDemoState, getk]

/-! ### C2: placing an order -/

/-- C2: `placeOrder` always succeeds, persisting a new order with status
`"pending"`, the given table number and exactly the given items; when the
table record exists the new id is appended at the end of its order list, and
when the table lookup fails the tables map is untouched while the order is
still created (the linkage is silently skipped). -/
theorem placeOrder_spec (s : KVState) (rid : String) (tn : Nat)
    (items : List Item) (newOid : String) (now : Nat) :
    ∃ s', placeOrder s rid tn items newOid now = .ok (s', newOid) ∧
      getk s'.orders (rid, newOid) = some ⟨newOid, rid, tn, items, "pending", now⟩ ∧
      (∀ t, getk s.tables (rid, tn) = some t →
        getk s'.tables (rid, tn) = some { t with orders := t.orders ++ [newOid] }) ∧
      (getk s.tables (rid, tn) = none → s'.tables = s.tables) := by
  cases ht : getk s.tables (rid, tn) with
  | some t =>
    simp only [placeOrder, ht]
    refine ⟨_, rfl, getk_setk_self _ _ _, ?_, ?_⟩
    · intro t' ht'
      obtain rfl : t = t' := Option.some.inj ht'
      exact getk_setk_self _ _ _
    · intro hn
      exact Option.noConfusion hn
  | none =>
    simp only [placeOrder, ht]
    refine ⟨_, rfl, getk_setk_self _ _ _, ?_, fun _ => rfl⟩
    intro t' ht'
    exact Option.noConfusion ht'

/-- C2 witness: placing an order on a table that already lists `"oX"`
persists the new pending order and appends `"o2"` after `"oX"`. -/
theorem placeOrder_witness :
    ∃ s', placeOrder orderDemoState "r" 1 [⟨"p2", "Juice", 2, 5, "drink"⟩] "o2" 7 =
        .ok (s', "o2") ∧
      getk s'.orders ("r", "o2") =
        some ⟨"o2", "r", 1, [⟨"p2", "Juice", 2, 5, "drink"⟩], "pending", 7⟩ ∧
      getk s'.tables ("r", 1) = some ⟨1, ["oX", "o2"]⟩ := by
  obtain ⟨s', hrun, hord, htab, -⟩ :=
    placeOrder_spec orderDemoState "r" 1 [⟨"p2", "Juice", 2, 5, "drink"⟩] "o2" 7
  exact ⟨s', hrun, hord, htab ⟨1, ["oX"]⟩ rfl⟩

/-! ### C3: inventory deduction on order placement -/

/-- C3: for every ingredient with an existing stock record, placing an order
leaves its stored quantity decreased by exactly the sum of
`ingredient.quantity * item.quantity` over every ingredient entry of that
name of every ordered item whose product record exists; the subtraction is
not floored at zero, so the result may be negative (see the witness). -/
theorem placeOrder_inventory_spec (s : KVState) (rid : String) (tn : Nat)
    (items : List Item) (newOid : String) (now : Nat) (name : String)
    (cur : InventoryItem) (h : getk s.inventory (rid, name) = some cur) :
    ∃ s', placeOrder s rid tn items newOid now = .ok (s', newOid) ∧
      getk s'.inventory (rid, name) =
        some { cur with quantity := cur.quantity - deductionTotal rid s.products name items } := by
  cases ht : getk s.tables (rid, tn) with
  | some t =>
    simp only [placeOrder, ht]
    exact ⟨_, rfl, getk_applyDeductions rid s.products items s.inventory name cur h⟩
  | none =>
    simp only [placeOrder, ht]
    exact ⟨_, rfl, getk_applyDeductions rid s.products items s.inventory name cur h⟩

/-- C3 witness: ordering one unit of a product that requires 10 `"cheese"`
against a stock of 5 leaves a stored quantity of `-5`: the deduction is not
floored at zero. -/
theorem placeOrder_inventory_witness :
    ∃ s', placeOrder stockDemoState "r" 1 [⟨"p1", "Burger", 1, 10, "food"⟩] "o1" 0 =
        .ok (s', "o1") ∧
      getk s'.inventory ("r", "cheese") = some ⟨"cheese", -5, "g"⟩ := by
  obtain ⟨s', hrun, hinv⟩ :=
    placeOrder_inventory_spec stockDemoState "r" 1 [⟨"p1", "Burger", 1, 10, "food"⟩]
      "o1" 0 "cheese" ⟨"cheese", 5, "g"⟩ rfl
  refine ⟨s', hrun, ?_⟩
  rw [hinv]
  norm_num [stockDemoState, deductionTotal, ingredientNeed, getk]

/-! ### C4: the signup payment gate -/

/-- C4 counterexample: the claim quantifies over every
`paymentToken ≠ "PAID"`, but the empty token is falsy and is caught by the
missing-fields guard first: the handler answers 400 `MissingFields`, not 402
`PaymentRequired`. -/
theorem signup_payment_counterexample :
    ("" : String) ≠ "PAID" ∧
    signup KVState.empty "a@b.c" "pw" "Cafe" "" "r1" 0 = .error .missingFields ∧
    signup KVState.empty "a@b.c" "pw" "Cafe" "" "r1" 0 ≠ .error .paymentRequired := by
  refine ⟨by decide, rfl, ?_⟩
  intro h
  rw [show signup KVState.empty "a@b.c" "pw" "Cafe" "" "r1" 0 = .error .missingFields from rfl] at h
  injection h with h'
  exact Err.noConfusion h'

/-- C4 (amended): with nonempty email, password and name, `signup` fails
with `PaymentRequired` for every nonempty paymentToken other than `"PAID"`
(an empty token is caught earlier as `MissingFields`); the handler rejects
before its first write, which the embedding mirrors by erroring without
producing a state, so no restaurant record or email index is created.  With
token `"PAID"` and an unindexed email, it succeeds. -/
theorem signup_payment_spec (s : KVState)
    (email password name token newId : String) (now : Nat)
    (he : email ≠ "") (hp : password ≠ "") (hn : name ≠ "") :
    (token ≠ "" → token ≠ "PAID" →
      signup s email password name token newId now = .error .paymentRequired) ∧
    (getk s.emailIndex email = none →
      ∃ s', signup s email password name "PAID" newId now = .ok (s', newId)) := by
  constructor
  · intro ht hpaid
    have hc : ¬(email = "" ∨ password = "" ∨ name = "" ∨ token = "") := by
      rintro (h | h | h | h)
      · exact he h
      · exact hp h
      · exact hn h
      · exact ht h
    rw [signup, if_neg hc, if_pos hpaid]
  · intro hidx
    have hc : ¬(email = "" ∨ password = "" ∨ name = "" ∨ ("PAID" : String) = "") := by
      rintro (h | h | h | h)
      · exact he h
      · exact hp h
      · exact hn h
      · exact absurd h (by decide)
    rw [signup, if_neg hc, if_neg (by simp), hidx]
    exact ⟨_, rfl⟩

/-- C4 witness: a nonempty non-`"PAID"` token is rejected with
`PaymentRequired`, and the same signup with `"PAID"` succeeds. -/
theorem signup_payment_witness :
    signup KVState.empty "a@b.c" "pw" "Cafe" "TOKEN" "r1" 0 = .error .paymentRequired ∧
    ∃ s', signup KVState.empty "a@b.c" "pw" "Cafe" "PAID" "r1" 0 = .ok (s', "r1") := by
  have h := signup_payment_spec KVState.empty "a@b.c" "pw" "Cafe" "TOKEN" "r1" 0
    (by decide) (by decide) (by decide)
  exact ⟨h.1 (by decide) (by decide), h.2 rfl⟩

/-! ### C5: table provisioning at signup -/

/-- C5: after a successful signup of a fresh restaurant id (no table of that
id existed before), the tables keyed by the new id are exactly those
numbered 1 through 10, each with an empty order list. -/
theorem signup_tables_spec (s : KVState) (email password name newId : String)
    (now : Nat) (s' : KVState)
    (hfresh : ∀ n, getk s.tables (newId, n) = none)
    (hrun : signup s email password name "PAID" newId now = .ok (s', newId)) :
    ∀ n, getk s'.tables (newId, n) =
      if 1 ≤ n ∧ n ≤ 10 then some ⟨n, []⟩ else none := by
  intro n
  by_cases hc : email = "" ∨ password = "" ∨ name = "" ∨ ("PAID" : String) = ""
  · rw [signup, if_pos hc] at hrun
    exact Except.noConfusion hrun
  · rw [signup, if_neg hc, if_neg (by simp)] at hrun
    cases hm : getk s.emailIndex email with
    | some x =>
      rw [hm] at hrun
      exact Except.noConfusion hrun
    | none =>
      rw [hm] at hrun
      simp only [Except.ok.injEq, Prod.mk.injEq] at hrun
      obtain ⟨hs, -⟩ := hrun
      subst hs
      show getk (provisionUpTo newId 10 s.tables) (newId, n) =
        if 1 ≤ n ∧ n ≤ 10 then some ⟨n, []⟩ else none
      rw [getk_provisionUpTo, hfresh n]
      simp

/-- C5 witness: in the store produced by a signup on the empty store, table
5 exists with an empty order list and table 11 does not exist. -/
theorem signup_tables_witness :
    getk signupState.tables ("r1", 5) = some ⟨5, []⟩ ∧
    getk signupState.tables ("r1", 11) = none := by
  have h := signup_tables_spec KVState.empty "a@b.c" "pw" "Cafe" "r1" 0 signupState
    (fun n => rfl) rfl
  constructor
  · have h5 := h 5
    simpa using h5
  · have h11 := h 11
    simpa using h11

/-! ### C6: updating a line item -/

/-- C6 counterexample: the claim quantifies over every `itemIndex`, but on
an existing one-item order, `updateLineItem` with `quantity = 0` and
`itemIndex = 3` succeeds while the splice removes nothing: the item count
stays 1 instead of strictly decreasing by one. -/
theorem updateLineItem_counterexample :
    (∃ o₀, getk lineItemDemoState.orders ("r", "o1") = some o₀ ∧
      o₀.items.length = 1) ∧
    ∃ s', updateLineItem lineItemDemoState "r" "o1" 3 0 = .ok s' ∧
      ∃ o, getk s'.orders ("r", "o1") = some o ∧ o.items.length = 1 := by
  exact ⟨⟨_, rfl, rfl⟩, _, rfl, _, rfl, rfl⟩

/-- C6 (amended): for every existing order, `updateLineItem` with
`quantity = 0` never raises a not-found error, and when `itemIndex` is
within range it removes the item at that position (shifting the rest down),
strictly decreasing the item count by one; with a nonzero quantity and
`itemIndex` within range it sets that item's quantity in place; it fails
with `NotFound` exactly when the order is missing. -/
theorem updateLineItem_spec (s : KVState) (rid oid : String) (idx : Nat)
    (q : ℚ) :
    (∀ o, getk s.orders (rid, oid) = some o →
      (∃ s', updateLineItem s rid oid idx 0 = .ok s') ∧
      (idx < o.items.length →
        ∃ s', updateLineItem s rid oid idx 0 = .ok s' ∧
          getk s'.orders (rid, oid) = some { o with items := o.items.eraseIdx idx } ∧
          (o.items.eraseIdx idx).length + 1 = o.items.length) ∧
      (q ≠ 0 → ∀ h : idx < o.items.length,
        ∃ s', updateLineItem s rid oid idx q = .ok s' ∧
          getk s'.orders (rid, oid) =
            some { o with items := o.items.set idx { o.items.get ⟨idx, h⟩ with quantity := q } })) ∧
    (updateLineItem s rid oid idx q = .error .notFound ↔
      getk s.orders (rid, oid) = none) := by
  constructor
  · intro o ho
    refine ⟨⟨{ s with orders := setk s.orders (rid, oid) { o with items := o.items.eraseIdx idx } }, ?_⟩, ?_, ?_⟩
    · simp [updateLineItem, ho]
    · intro hidx
      refine ⟨{ s with orders := setk s.orders (rid, oid) { o with items := o.items.eraseIdx idx } },
        ?_, getk_setk_self _ _ _, ?_⟩
      · simp [updateLineItem, ho]
      · have hl : (o.items.eraseIdx idx).length = o.items.length - 1 :=
          List.length_eraseIdx_of_lt hidx
        omega
    · intro hq h
      refine ⟨{ s with orders := setk s.orders (rid, oid) { o with items := o.items.set idx { o.items.get ⟨idx, h⟩ with quantity := q } } }, ?_, getk_setk_self _ _ _⟩
      simp only [updateLineItem, ho, if_neg hq, dif_pos h]
  · cases hm : getk s.orders (rid, oid) with
    | none => simp [updateLineItem, hm]
    | some o =>
      constructor
      · intro h
        exfalso
        simp only [updateLineItem, hm] at h
        by_cases hq : q = 0
        · rw [if_pos hq] at h
          exact Except.noConfusion h
        · rw [if_neg hq] at h
          by_cases hl : idx < o.items.length
          · rw [dif_pos hl] at h
            exact Except.noConfusion h
          · rw [dif_neg hl] at h
            injection h with h'
            exact Err.noConfusion h'
      · intro h
        exact Option.noConfusion h

/-- C6 witness: on a two-item order, removing index 0 with quantity 0 leaves
only the second item (count 2 → 1), and setting quantity 3 at index 1
changes that item's quantity in place. -/
theorem updateLineItem_witness :
    (∃ s', updateLineItem twoItemDemoState "r" "o2" 0 0 = .ok s' ∧
      getk s'.orders ("r", "o2") =
        some ⟨"o2", "r", 1, [⟨"p2", "Juice", 2, 5, "drink"⟩], "pending", 0⟩) ∧
    (∃ s', updateLineItem twoItemDemoState "r" "o2" 1 3 = .ok s' ∧
      getk s'.orders ("r", "o2") =
        some ⟨"o2", "r", 1,
          [⟨"p1", "Burger", 1, 10, "food"⟩, ⟨"p2", "Juice", 3, 5, "drink"⟩],
          "pending", 0⟩) := by
  obtain ⟨-, h1, -⟩ := (updateLineItem_spec twoItemDemoState "r" "o2" 0 (3 : ℚ)).1 _ rfl
  obtain ⟨-, -, h2⟩ := (updateLineItem_spec twoItemDemoState "r" "o2" 1 (3 : ℚ)).1 _ rfl
  constructor
  · obtain ⟨s', hrun, hget, -⟩ := h1 (by decide)
    refine ⟨s', hrun, ?_⟩
    rw [hget]
    rfl
  · obtain ⟨s', hrun, hget⟩ := h2 (by decide) (by decide)
    refine ⟨s', hrun, ?_⟩
    rw [hget]
    rfl

/-! ### C7: marking an order ready -/

/-- C7: `markReady` sets the order's status to `"ready"` and is idempotent:
a second call on the same order succeeds and leaves the status `"ready"`;
and it fails with `NotFound` exactly when no order with that id exists under
that restaurant. -/
theorem markReady_spec (s : KVState) (rid oid : String) :
    (∀ o, getk s.orders (rid, oid) = some o →
      ∃ s', markReady s rid oid = .ok s' ∧
        getk s'.orders (rid, oid) = some { o with status := "ready" } ∧
        ∃ s'', markReady s' rid oid = .ok s'' ∧
          getk s''.orders (rid, oid) = some { o with status := "ready" }) ∧
    (markReady s rid oid = .error .notFound ↔
      getk s.orders (rid, oid) = none) := by
  constructor
  · intro o ho
    have h1 : getk (setk s.orders (rid, oid) { o with status := "ready" }) (rid, oid) =
        some { o with status := "ready" } := getk_setk_self _ _ _
    have hrun1 : markReady s rid oid =
        .ok { s with orders := setk s.orders (rid, oid) { o with status := "ready" } } := by
      simp [markReady, ho]
    have hrun2 : markReady { s with orders := setk s.orders (rid, oid) { o with status := "ready" } } rid oid = .ok { s with orders := setk (setk s.orders (rid, oid) { o with status := "ready" }) (rid, oid) { o with status := "ready" } } := by
      simp [markReady, h1]
    exact ⟨_, hrun1, h1, _, hrun2, getk_setk_self _ _ _⟩
  · cases hm : getk s.orders (rid, oid) with
    | none => simp [markReady, hm]
    | some o =>
      constructor
      · intro h
        exfalso
        simp only [markReady, hm] at h
        exact Except.noConfusion h
      · intro h
        exact Option.noConfusion h

/-- C7 witness: marking the pending order `"oX"` ready twice in a row: both
calls succeed and both leave the stored status `"ready"`. -/
theorem markReady_witness :
    ∃ s', markReady orderDemoState "r" "oX" = .ok s' ∧
      getk s'.orders ("r", "oX") =
        some ⟨"oX", "r", 1, [⟨"p1", "Burger", 1, 10, "food"⟩], "ready", 0⟩ ∧
      ∃ s'', markReady s' "r" "oX" = .ok s'' ∧
        getk s''.orders ("r", "oX") =
          some ⟨"oX", "r", 1, [⟨"p1", "Burger", 1, 10, "food"⟩], "ready", 0⟩ := by
  obtain ⟨s', h1, h2, s'', h3, h4⟩ := (markReady_spec orderDemoState "r" "oX").1 _ rfl
  exact ⟨s', h1, h2, s'', h3, h4⟩

/-! ### C8: inventory adjustment round-trip -/

/-- C8: for an ingredient with no existing inventory record,
`adjustInventory` creates a record with quantity 0 and the given unit and
then adds the delta; a second adjustment adds its delta to the stored
quantity (keeping the stored unit). -/
theorem adjustInventory_spec (s : KVState) (rid name u1 u2 : String)
    (d1 d2 : ℚ) (s1 s2 : KVState)
    (h : getk s.inventory (rid, name) = none)
    (h1 : adjustInventory s rid name d1 u1 = .ok s1)
    (h2 : adjustInventory s1 rid name d2 u2 = .ok s2) :
    getk s1.inventory (rid, name) = some ⟨name, 0 + d1, u1⟩ ∧
    getk s2.inventory (rid, name) = some ⟨name, 0 + d1 + d2, u1⟩ := by
  simp only [adjustInventory, Except.ok.injEq] at h1
  rw [h] at h1
  simp only [Option.getD_none] at h1
  subst h1
  have g1 : getk (setk s.inventory (rid, name) ⟨name, 0 + d1, u1⟩) (rid, name) =
      some ⟨name, 0 + d1, u1⟩ := getk_setk_self _ _ _
  refine ⟨g1, ?_⟩
  simp only [adjustInventory, Except.ok.injEq] at h2
  rw [g1] at h2
  simp only [Option.getD_some] at h2
  subst h2
  exact getk_setk_self _ _ _

/-- C8 witness: `+100` then `-40` on the fresh ingredient `"flour"` leaves a
stored quantity of exactly `0 + 100 + -40 = 60`, with the unit `"kg"` of the
creating call. -/
theorem adjustInventory_witness :
    ∃ s1 s2, adjustInventory KVState.empty "r" "flour" 100 "kg" = .ok s1 ∧
      adjustInventory s1 "r" "flour" (-40) "g" = .ok s2 ∧
      getk s1.inventory ("r", "flour") = some ⟨"flour", 0 + 100, "kg"⟩ ∧
      getk s2.inventory ("r", "flour") = some ⟨"flour", 0 + 100 + -40, "kg"⟩ ∧
      (0 : ℚ) + 100 + -40 = 60 := by
  refine ⟨_, _, rfl, rfl, ?_, ?_, by norm_num⟩
  · exact (adjustInventory_spec KVState.empty "r" "flour" "kg" "g" 100 (-40) _ _ rfl rfl rfl).1
  · exact (adjustInventory_spec KVState.empty "r" "flour" "kg" "g" 100 (-40) _ _ rfl rfl rfl).2

/-! ### C9: completing an order dangles the table reference -/

/-- C9: `completeOrder` always succeeds and deletes only the order key: the
tables map (and every other map) is untouched, so an id the table still
references now dangles; all other order keys keep their values; and a later
`listTableOrders` resolves the table's list while silently skipping ids that
no longer resolve, so the completed order no longer appears (the listing is
a total function, so no error is raised). -/
theorem completeOrder_spec (s : KVState) (rid oid : String) :
    ∃ s', completeOrder s rid oid = .ok s' ∧
      s'.tables = s.tables ∧
      s'.restaurants = s.restaurants ∧
      s'.emailIndex = s.emailIndex ∧
      s'.products = s.products ∧
      s'.inventory = s.inventory ∧
      s'.sales = s.sales ∧
      getk s'.orders (rid, oid) = none ∧
      (∀ k, k ≠ (rid, oid) → getk s'.orders k = getk s.orders k) ∧
      (∀ tn t, getk s.tables (rid, tn) = some t → oid ∈ t.orders →
        getk s'.tables (rid, tn) = some t ∧ oid ∈ t.orders) ∧
      (∀ tn, listTableOrders s' rid tn =
        match getk s.tables (rid, tn) with
        | none => []
        | some t => (t.orders.filter fun i => i ≠ oid).filterMap fun i => getk s.orders (rid, i)) := by
  refine ⟨_, rfl, rfl, rfl, rfl, rfl, rfl, rfl, ?_, ?_, ?_, ?_⟩
  · rw [getk_delk, if_pos rfl]
  · intro k hk
    rw [getk_delk, if_neg (fun h => hk h.symm)]
  · intro tn t ht hmem
    exact ⟨ht, hmem⟩
  · intro tn
    cases ht : getk s.tables (rid, tn) with
    | none => simp [listTableOrders, ht]
    | some t =>
      simp only [listTableOrders, ht]
      exact filterMap_getk_delk rid oid s.orders t.orders

/-- C9 witness: completing order `"oA"` of table 2 leaves the table record
still listing `"oA"`, deletes the order record, and `listTableOrders`
afterwards silently skips the dangling id, returning only `"oB"`'s order. -/
theorem completeOrder_witness :
    ∃ s', completeOrder closeDemoState "r" "oA" = .ok s' ∧
      getk s'.tables ("r", 2) = some ⟨2, ["oA", "oB"]⟩ ∧
      getk s'.orders ("r", "oA") = none ∧
      listTableOrders s' "r" 2 =
        [⟨"oB", "r", 2, [⟨"p2", "Juice", 2, 5, "drink"⟩], "ready", 6⟩] := by
  obtain ⟨s', hrun, htab, -, -, -, -, -, hnone, -, hdang, hlist⟩ :=
    completeOrder_spec closeDemoState "r" "oA"
  refine ⟨s', hrun, ?_, hnone, ?_⟩
  · exact (hdang 2 ⟨2, ["oA", "oB"]⟩ rfl (by simp)).1
  · rw [hlist 2]
    rfl

/-! ### C10: the default manager password is the empty string -/

/-- C10: signup stores `managerPassword: ""` in the restaurant record, and
`verifyManager` is an exact string comparison against the stored value, so
for a restaurant fresh from signup (on which `setManagerPassword` was never
called) verification with the empty string succeeds. -/
theorem verifyManager_default_spec (s s' : KVState)
    (email password name newId : String) (now : Nat)
    (hrun : signup s email password name "PAID" newId now = .ok (s', newId)) :
    ∃ r, getk s'.restaurants newId = some r ∧ r.managerPassword = "" ∧
      verifyManager s' newId "" = .ok () := by
  by_cases hc : email = "" ∨ password = "" ∨ name = "" ∨ ("PAID" : String) = ""
  · rw [signup, if_pos hc] at hrun
    exact Except.noConfusion hrun
  · rw [signup, if_neg hc, if_neg (by simp)] at hrun
    cases hm : getk s.emailIndex email with
    | some x =>
      rw [hm] at hrun
      exact Except.noConfusion hrun
    | none =>
      rw [hm] at hrun
      simp only [Except.ok.injEq, Prod.mk.injEq] at hrun
      obtain ⟨hs, -⟩ := hrun
      subst hs
      have hr : getk (setk s.restaurants newId (⟨newId, email, password, name, true, "", now⟩ : Restaurant)) newId = some ⟨newId, email, password, name, true, "", now⟩ :=
        getk_setk_self _ _ _
      refine ⟨⟨newId, email, password, name, true, "", now⟩, hr, rfl, ?_⟩
      simp [verifyManager, hr]

/-- C10 witness: on the store fresh from a signup, verifying the manager
password with the empty string succeeds. -/
theorem verifyManager_default_witness :
    verifyManager signupState "r1" "" = .ok () ∧
    ∃ r, getk signupState.restaurants "r1" = some r ∧ r.managerPassword = "" := by
  obtain ⟨r, hget, hmp, hver⟩ := verifyManager_default_spec KVState.empty signupState
    "a@b.c" "pw" "Cafe" "r1" 0 rfl
  exact ⟨hver, r, hget, hmp⟩

end POS
